import Mathlib

/-!
# Verification of `SimSwap.py`

A shallow embedding of the SimSwap pipeline (`src/SimSwap.py`): a Pandas
table loaded from a `;`-delimited CSV, a NetworkX graph built from it with
`nx.from_pandas_edgelist`, and the Bokeh rendering data (node/edge color
values via `linear_cmap`).

Cells of the loaded table are modelled by `Value`: strings, parsed dates
(`parse_dates=[0, 2]`, a date is a point on a totally ordered timeline,
modelled as `Int`), and numbers.  A table is a list of column names (the
nine columns selected by `usecols=[4, 5, 6, 7, 9, 10, 11, 12, 13]`) plus
rows of cells.

`nx.from_pandas_edgelist` is called with no `create_using` argument, so the
result is a *simple undirected* `nx.Graph`: `add_edge(u, v, **attrs)` on an
existing (unordered) edge updates that edge's attribute dict in place, and
since every call supplies the full attribute set, the later row's
attributes replace the earlier row's.  The embedding mirrors this.
-/

namespace SimSwap

/-- A cell of the loaded dataframe: a string, a parsed date (a point on a
totally ordered timeline), or a number. -/
inductive Value where
  | str (s : String)
  | date (t : Int)
  | num (n : Int)
  deriving DecidableEq, Repr

/-- Python `a < b` on two cells; in the script it is only ever applied to
the two parsed date columns (`data.iat[i, 0] < data.iat[i, 2]`). -/
def Value.lt : Value → Value → Bool
  | .date a, .date b => a < b
  | .num a, .num b => a < b
  | .str a, .str b => a < b
  | _, _ => false

/-- Python `str(i)`, as applied to node identifiers in `build_bokeh`
(`len(str(i))`).  Node identifiers come from the `PIN RESET MSISDN` and
`CREDIT PARTY` columns, which hold strings or numbers. -/
def Value.toStr : Value → String
  | .str s => s
  | .num n => toString n
  | .date t => toString t

/-- Default cell handed to positional access; every access in the script is
within bounds on well-formed input, so the default is never relevant there. -/
def v0 : Value := .num 0

/-- A row of the dataframe: one cell per selected column. -/
abbrev Row := List Value

/-- The dataframe produced by `pd.read_csv(..., usecols=[4,5,6,7,9,10,11,12,13],
parse_dates=[0,2])`: the names of the nine selected columns and the rows. -/
structure Table where
  names : List String
  rows : List Row
  deriving DecidableEq, Repr

/-- The `TIME` cell derived for one row:
`0 if data.iat[i, 0] < data.iat[i, 2] else 1`. -/
def timeVal (r : Row) : Value :=
  .num (if (r.getD 0 v0).lt (r.getD 2 v0) then 0 else 1)

/-- `data['TIME'] = [0 if data.iat[i, 0] < data.iat[i, 2] else 1 for i in
range(len(data.index))]`: the comprehension is evaluated on the loaded
frame, then assigned — a new column appended at the end (or, had a selected
column already been named `TIME`, that column replaced). -/
def read_csv (t : Table) : Table :=
  match t.names.indexOf? "TIME" with
  | some i => ⟨t.names, t.rows.map fun r => r.set i (timeVal r)⟩
  | none => ⟨t.names ++ ["TIME"], t.rows.map fun r => r ++ [timeVal r]⟩

/-! ## NetworkX graph construction -/

/-- Edge attributes: an association list from attribute name to value
(a Python dict built from the `edge_attr` tuple). -/
abbrev Attrs := List (String × Value)

/-- One stored edge of the `nx.Graph`: endpoints and attribute dict. -/
structure Edge where
  u : Value
  v : Value
  attrs : Attrs
  deriving DecidableEq, Repr

/-- The `nx.Graph`: nodes in insertion order, edges in insertion order. -/
structure Graph where
  nodes : List Value
  edges : List Edge
  deriving DecidableEq, Repr

/-- Whether the unordered pair `{a, b}` equals the unordered pair `{u, v}`:
edge identity in an undirected `nx.Graph`. -/
def samePair (a b u v : Value) : Bool :=
  (a = u && b = v) || (a = v && b = u)

/-- `nx.Graph` node insertion: a node already present is left in place. -/
def addNode (ns : List Value) (x : Value) : List Value :=
  if x ∈ ns then ns else ns ++ [x]

/-- `nx.Graph.add_edge(u, v, **attrs)`: adds the endpoints as nodes (in the
order `u`, `v`), then either updates the attribute dict of the existing
edge `{u, v}` — every call supplies the full attribute set, so this is a
replacement — or appends a fresh edge. -/
def addEdge (g : Graph) (u v : Value) (d : Attrs) : Graph :=
  if g.edges.any (fun e => samePair e.u e.v u v) then
    ⟨addNode (addNode g.nodes u) v,
     g.edges.map fun e => if samePair e.u e.v u v then ⟨e.u, e.v, d⟩ else e⟩
  else
    ⟨addNode (addNode g.nodes u) v, g.edges ++ [⟨u, v, d⟩]⟩

/-- The `edge_attr` tuple passed to `nx.from_pandas_edgelist` (the source
lists `'TIME'` twice). -/
def edge_attr_names : List String :=
  ["PIN RESET MSISDN", "DEBIT PARTY", "CREDIT PARTY",
   "CREDIT PARTY SHORTCODE/MSISDN", "TIME",
   "TRANSACTION TIME", "TRANSACTION ID", "TRANSACTION AMOUNT", "TIME"]

/-- The column names `nx.from_pandas_edgelist` resolves against the frame,
in access order: `source`, `target`, then the `edge_attr` tuple.  The first
one absent from the frame raises `KeyError(name)`. -/
def accessOrder : List String :=
  "PIN RESET MSISDN" :: "CREDIT PARTY" :: edge_attr_names

/-- The first required column name missing from the frame's columns (the
key carried by the `KeyError`), if any. -/
def firstMissing (names : List String) : Option String :=
  accessOrder.find? fun k => !names.contains k

/-- The attribute dict built for one row from resolved column positions. -/
def attrsOf (ais : List (String × Nat)) (r : Row) : Attrs :=
  ais.map fun p => (p.1, r.getD p.2 v0)

/-- Adds one dataframe row to the graph: `add_edge` between the row's
source and target cells, with the `edge_attr` columns as attributes.
`si`, `ti` are the resolved column positions of `'PIN RESET MSISDN'` and
`'CREDIT PARTY'`; `ais` pairs each attribute name with its position. -/
def step (si ti : Nat) (ais : List (String × Nat)) (g : Graph) (r : Row) : Graph :=
  addEdge g (r.getD si v0) (r.getD ti v0) (attrsOf ais r)

/-- Folds all rows into an initially empty graph. -/
def buildG (si ti : Nat) (ais : List (String × Nat)) (rows : List Row) : Graph :=
  rows.foldl (step si ti ais) ⟨[], []⟩

/-- `nx.from_pandas_edgelist(data, source='PIN RESET MSISDN',
target='CREDIT PARTY', edge_attr=(...))`: resolves every referenced column
name (raising `KeyError` on the first missing one), then adds one edge per
row in order. -/
def from_pandas_edgelist (t : Table) : Except String Graph :=
  match firstMissing t.names with
  | some k => .error k
  | none =>
    .ok (buildG (t.names.indexOf "PIN RESET MSISDN") (t.names.indexOf "CREDIT PARTY")
      (edge_attr_names.map fun n => (n, t.names.indexOf n)) t.rows)

/-- `SimSwap.build_nx`: load the table, derive `TIME`, build the graph. -/
def build_nx (t : Table) : Except String Graph :=
  from_pandas_edgelist (read_csv t)

/-! ## Bokeh rendering data (`build_bokeh`) -/

/-- Python `d.get(k)` on an attribute dict: the stored value, or `None`. -/
def getAttr (d : Attrs) (k : String) : Option Value :=
  (d.find? fun p => p.1 = k).map (·.2)

/-- `atts = [d for u, v, d in nx_graph.edges(data=True)]`. -/
def atts (g : Graph) : List Attrs :=
  g.edges.map (·.attrs)

/-- `r_msisdn`: the `'PIN RESET MSISDN'` attribute of each stored edge. -/
def r_msisdn (g : Graph) : List (Option Value) :=
  (atts g).map fun d => getAttr d "PIN RESET MSISDN"

/-- `ba_time`: the `'TIME'` attribute of each stored edge. -/
def ba_time (g : Graph) : List (Option Value) :=
  (atts g).map fun d => getAttr d "TIME"

/-- The category appended to `node_color_list` for one node `i`:
`0` if `len(str(i)) < 12`, else `1` if `i in r_msisdn`, else `2`. -/
def node_color (g : Graph) (i : Value) : Nat :=
  if i.toStr.length < 12 then 0
  else if (r_msisdn g).contains (some i) then 1
  else 2

/-- `node_color_list`, one category per node in node order. -/
def node_color_list (g : Graph) : List Nat :=
  g.nodes.map (node_color g)

/-- Bokeh's `LinearColorMapper` (the mapper behind
`bokeh.transform.linear_cmap`), the external charting collaborator:
a value equal to `high` takes the last palette color; otherwise the value
is binned by `key = floor((d - low) / (high - low) * |palette|)`, clamped
to the palette (values falling below the `low` endpoint take the first
color, values beyond the `high` endpoint the last).  So the `low` endpoint
takes the first (low-end) palette color and the `high` endpoint the last
(high-end) one.  Arguments here are integers, as in the script. -/
def linearColorMapper (palette : List String) (low high d : Int) : Option String :=
  if d = high then palette.getLast?
  else
    let key : Int := Int.fdiv ((d - low) * palette.length) (high - low)
    if key < 0 then palette.head?
    else if key > (palette.length : Int) - 1 then palette.getLast?
    else palette.get? key.toNat

/-- The edge palette: `target_palette = ['mediumseagreen', 'firebrick']`. -/
def target_palette : List String := ["mediumseagreen", "firebrick"]

/-- The node palette: `['#808080', '#B22222', '#FFA07A']`. -/
def node_target_palette : List String := ["#808080", "#B22222", "#FFA07A"]

/-- The color `linear_cmap(field_name='batime', palette=target_palette,
low=1, high=0)` assigns to one edge's `batime` value. -/
def edge_color : Option Value → Option String
  | some (.num n) => linearColorMapper target_palette 1 0 n
  | _ => none

/-- The color `linear_cmap(field_name='node_colors',
palette=node_target_palette, low=0, high=2)` assigns to one node's
category. -/
def node_color_mapped (c : Nat) : Option String :=
  linearColorMapper node_target_palette 0 2 c

/-- The deterministic content of the rendered plot: title, per-node color
categories and resolved colors, per-edge `batime` values and resolved
colors.  (The spring layout's coordinates are randomized floating-point
output of NetworkX and are not modelled.) -/
structure Rendered where
  title : String
  node_colors : List Nat
  node_color_strings : List (Option String)
  edge_times : List (Option Value)
  edge_color_strings : List (Option String)
  deriving DecidableEq, Repr

/-- The data `build_bokeh` hands to the plot once the graph is built. -/
def render (g : Graph) : Rendered :=
  { title := "Tanzania SIM Swaps & PIN Resets 21-28 August 2018"
    node_colors := node_color_list g
    node_color_strings := (node_color_list g).map node_color_mapped
    edge_times := ba_time g
    edge_color_strings := (ba_time g).map edge_color }

/-! ## Top-level run (`SimSwap(...)` / `s.build_bokeh()` and the
`try/except` at module bottom) -/

/-- The input the script finds at the hardcoded path: either no file, or a
file whose selected columns parse into a `Table`. -/
inductive InputFile where
  | missing
  | table (t : Table)

/-- The error kinds surfaced at the top level: `FileNotFoundError`
(NotFound) and `KeyError` (SchemaMismatch), with the offending key. -/
inductive RunError where
  | notFound
  | keyError (k : String)
  deriving DecidableEq, Repr

/-- Outcome of one run: everything printed, the HTML output written (the
rendered plot), if any, and the error the run ended with, if any. -/
structure RunResult where
  printed : List String
  output : Option Rendered
  err : Option RunError
  deriving Repr

/-- `str(FileNotFoundError)` as printed by `print('{0}'.format(file_error))`. -/
def fnf_str : String := "[Errno 2] No such file or directory"

/-- The whole run.  Missing file: `read_csv` prints `'CSV file not found.'`
and re-raises; the top level prints the error and the run ends — the output
file is never reached.  Missing column: `from_pandas_edgelist` raises
`KeyError(k)`, `build_nx` prints `'Incorrect CSV file heading.'` and
re-raises; the top level prints `'Key: {0}'.format(key_error)` (the `repr`
of the key) and the run ends without output.  Otherwise `build_bokeh`
renders the graph and `output_file(...)`/`save(plot)` write the HTML. -/
def run (f : InputFile) : RunResult :=
  match f with
  | .missing =>
    { printed := ["CSV file not found.", fnf_str], output := none, err := some .notFound }
  | .table t =>
    match from_pandas_edgelist (read_csv t) with
    | .error k =>
      { printed := ["Incorrect CSV file heading.", "Key: '" ++ k ++ "'"]
        output := none, err := some (.keyError k) }
    | .ok g =>
      { printed := [], output := some (render g), err := none }

/-! ## Derived notions used to state the properties -/

/-- The position of the `'PIN RESET MSISDN'` column in the input table. -/
def srcIdx (t : Table) : Nat := t.names.indexOf "PIN RESET MSISDN"

/-- The position of the `'CREDIT PARTY'` column in the input table. -/
def tgtIdx (t : Table) : Nat := t.names.indexOf "CREDIT PARTY"

/-- The reset-account-id of one record. -/
def rowSrc (t : Table) (r : Row) : Value := r.getD (srcIdx t) v0

/-- The credit-party-id of one record. -/
def rowTgt (t : Table) (r : Row) : Value := r.getD (tgtIdx t) v0

/-- The reset-account-ids appearing across all rows of the input data. -/
def resetIds (t : Table) : List Value := t.rows.map (rowSrc t)

/-- The credit-party-ids appearing across all rows of the input data. -/
def creditIds (t : Table) : List Value := t.rows.map (rowTgt t)

/-- The (reset-account-id, credit-party-id) pair of each row. -/
def edgePairs (t : Table) : List (Value × Value) :=
  t.rows.map fun r => (rowSrc t r, rowTgt t r)

/-- Appends an endpoint pair unless an unordered-equal pair is present. -/
def addPair (acc : List (Value × Value)) (p : Value × Value) : List (Value × Value) :=
  if acc.any (fun q => samePair q.1 q.2 p.1 p.2) then acc else acc ++ [p]

/-- The distinct unordered endpoint pairs of a pair list, first occurrences
in order. -/
def dedupPairs (ps : List (Value × Value)) : List (Value × Value) :=
  ps.foldl addPair []

/-- The stored edge joining the unordered pair `{u, v}`, if any. -/
def findE (es : List Edge) (u v : Value) : Option Edge :=
  es.find? fun e => samePair e.u e.v u v

/-- The last input record whose (reset, credit) pair equals the unordered
pair `{u, v}`. -/
def lastRecord (t : Table) (u v : Value) : Option Row :=
  (t.rows.filter fun r => samePair (rowSrc t r) (rowTgt t r) u v).getLast?

/-- The attributes a record contributes to its edge, written out against
the input table: every originally-selected named column of that record,
plus the derived `TIME` (listed twice, as in the `edge_attr` tuple). -/
def recordAttrs (t : Table) (r : Row) : Attrs :=
  [("PIN RESET MSISDN", r.getD (t.names.indexOf "PIN RESET MSISDN") v0),
   ("DEBIT PARTY", r.getD (t.names.indexOf "DEBIT PARTY") v0),
   ("CREDIT PARTY", r.getD (t.names.indexOf "CREDIT PARTY") v0),
   ("CREDIT PARTY SHORTCODE/MSISDN",
     r.getD (t.names.indexOf "CREDIT PARTY SHORTCODE/MSISDN") v0),
   ("TIME", timeVal r),
   ("TRANSACTION TIME", r.getD (t.names.indexOf "TRANSACTION TIME") v0),
   ("TRANSACTION ID", r.getD (t.names.indexOf "TRANSACTION ID") v0),
   ("TRANSACTION AMOUNT", r.getD (t.names.indexOf "TRANSACTION AMOUNT") v0),
   ("TIME", timeVal r)]

/-- A well-formed input table: no selected column is already named `TIME`
(so the derived column is genuinely new), and every row has one cell per
column. -/
def WF (t : Table) : Prop :=
  "TIME" ∉ t.names ∧ ∀ r ∈ t.rows, r.length = t.names.length

/-- A header for the nine selected columns with the required names (the
two date-bearing columns get placeholder names; the source never reads
them by name). -/
def stdNames : List String :=
  ["RESET DATE", "PIN RESET MSISDN", "SWAP DATE", "DEBIT PARTY", "CREDIT PARTY",
   "CREDIT PARTY SHORTCODE/MSISDN", "TRANSACTION TIME", "TRANSACTION ID",
   "TRANSACTION AMOUNT"]

/-- A row of the nine selected columns in `stdNames` order. -/
def mkRow (d1 : Int) (src : String) (d2 : Int)
    (dn cr sc tt tid : String) (amt : Int) : Row :=
  [.date d1, .str src, .date d2, .str dn, .str cr, .str sc, .str tt, .str tid, .num amt]

/-! ## Basic lemmas about the graph operations -/

theorem samePair_refl (u v : Value) : samePair u v u v = true := by
  simp [samePair]

theorem samePair_symm {a b u v : Value} (h : samePair a b u v = true) :
    samePair u v a b = true := by
  simp only [samePair, Bool.or_eq_true, Bool.and_eq_true, decide_eq_true_eq] at *
  tauto

theorem samePair_trans {a b c d u v : Value} (h1 : samePair a b c d = true)
    (h2 : samePair c d u v = true) : samePair a b u v = true := by
  simp only [samePair, Bool.or_eq_true, Bool.and_eq_true, decide_eq_true_eq] at *
  rcases h1 with ⟨h, h'⟩ | ⟨h, h'⟩ <;> rcases h2 with ⟨g, g'⟩ | ⟨g, g'⟩ <;>
    subst h <;> subst h' <;> simp_all

theorem mem_addNode {ns : List Value} {x y : Value} :
    x ∈ addNode ns y ↔ x ∈ ns ∨ x = y := by
  by_cases h : y ∈ ns
  · simp only [addNode, if_pos h]
    constructor
    · exact Or.inl
    · rintro (h' | h')
      · exact h'
      · rw [h']; exact h
  · simp [addNode, if_neg h]

theorem addEdge_nodes (g : Graph) (u v : Value) (d : Attrs) :
    (addEdge g u v d).nodes = addNode (addNode g.nodes u) v := by
  unfold addEdge
  split <;> rfl

/-- A helper: `any` over a mapped list. -/
theorem any_map' {α β : Type} (l : List α) (f : α → β) (p : β → Bool) :
    (l.map f).any p = l.any fun x => p (f x) := by
  induction l with
  | nil => rfl
  | cons a l ih => simp [List.any_cons, ih]

theorem addEdge_keys (g : Graph) (u v : Value) (d : Attrs) :
    (addEdge g u v d).edges.map (fun e => (e.u, e.v)) =
      addPair (g.edges.map fun e => (e.u, e.v)) (u, v) := by
  have hany : ((g.edges.map fun e => (e.u, e.v)).any fun q => samePair q.1 q.2 u v) =
      g.edges.any fun e => samePair e.u e.v u v := by
    rw [any_map']
  by_cases h : (g.edges.any fun e => samePair e.u e.v u v) = true
  · simp only [addEdge, addPair, hany, h, if_true, List.map_map]
    apply List.map_congr_left
    intro e _
    by_cases he : samePair e.u e.v u v = true <;> simp [he]
  · rw [Bool.not_eq_true] at h
    simp [addEdge, addPair, hany, h]

theorem findE_addEdge (g : Graph) (a b u v : Value) (d : Attrs) :
    (findE (addEdge g a b d).edges u v).map Edge.attrs =
      if samePair a b u v then some d
      else (findE g.edges u v).map Edge.attrs := by
  by_cases hex : (g.edges.any fun e => samePair e.u e.v a b) = true
  · -- an edge with the pair {a, b} already exists: attribute replacement
    simp only [findE, addEdge, hex, if_true]
    rw [List.find?_map]
    have hpred : ((fun e : Edge => samePair e.u e.v u v) ∘
        fun e : Edge => if samePair e.u e.v a b then ⟨e.u, e.v, d⟩ else e) =
        fun e : Edge => samePair e.u e.v u v := by
      funext e
      by_cases he : samePair e.u e.v a b = true <;> simp [he]
    rw [hpred]
    rcases hfind : (g.edges.find? fun e => samePair e.u e.v u v) with _ | e₀
    · -- nothing matches {u, v}
      by_cases hab : samePair a b u v = true
      · -- but then {a, b} = {u, v} and some edge matches {a, b}: contradiction
        exfalso
        rw [List.any_eq_true] at hex
        obtain ⟨e, he, hpe⟩ := hex
        rw [List.find?_eq_none] at hfind
        exact hfind e he (samePair_trans hpe hab)
      · simp [hab, hfind]
    · have hpe₀ := List.find?_some hfind
      by_cases hab : samePair a b u v = true
      · -- {a, b} = {u, v}: the found edge is replaced, its attrs become d
        have hba : samePair e₀.u e₀.v a b = true :=
          samePair_trans hpe₀ (samePair_symm hab)
        rw [hfind, if_pos hab]
        simp [hba]
      · -- {a, b} ≠ {u, v}: the found edge is untouched
        have hba : samePair e₀.u e₀.v a b = false := by
          by_contra hc
          rw [Bool.not_eq_false] at hc
          exact hab (samePair_trans (samePair_symm hc) hpe₀)
        rw [hfind, if_neg hab]
        simp [hba]
  · -- no edge with the pair {a, b}: a fresh edge is appended
    have hex' : (g.edges.any fun e => samePair e.u e.v a b) = false :=
      Bool.not_eq_true _ ▸ (Bool.not_eq_true _).mp hex
    simp only [findE, addEdge, hex', Bool.false_eq_true, if_false]
    rw [List.find?_append]
    by_cases hab : samePair a b u v = true
    · have hnone : (g.edges.find? fun e => samePair e.u e.v u v) = none := by
        rw [List.find?_eq_none]
        intro e he hpe
        rw [List.any_eq_true] at hex
        exact hex ⟨e, he, samePair_trans hpe (samePair_symm hab)⟩
      simp [hnone, hab, List.find?_cons]
    · have hab' : samePair a b u v = false := by
        by_contra hc
        rw [Bool.not_eq_false] at hc
        exact hab hc
      simp [List.find?_cons, hab', hab]

/-! ## Lemmas about the row fold -/

theorem foldl_step_keys (si ti : Nat) (ais : List (String × Nat)) (rows : List Row)
    (g : Graph) :
    (rows.foldl (step si ti ais) g).edges.map (fun e => (e.u, e.v)) =
      (rows.map fun r => (r.getD si v0, r.getD ti v0)).foldl addPair
        (g.edges.map fun e => (e.u, e.v)) := by
  induction rows generalizing g with
  | nil => rfl
  | cons r rows ih =>
    rw [List.foldl_cons, List.map_cons, List.foldl_cons, ih, step, addEdge_keys]

theorem foldl_step_nodes (si ti : Nat) (ais : List (String × Nat)) (rows : List Row)
    (g : Graph) (x : Value) :
    x ∈ (rows.foldl (step si ti ais) g).nodes ↔
      x ∈ g.nodes ∨ ∃ r ∈ rows, x = r.getD si v0 ∨ x = r.getD ti v0 := by
  induction rows generalizing g with
  | nil => simp
  | cons r rows ih =>
    rw [List.foldl_cons, ih]
    unfold step
    rw [addEdge_nodes, mem_addNode, mem_addNode]
    simp only [List.mem_cons]
    constructor
    · rintro (((h | h) | h) | ⟨r', hr', h⟩)
      · exact Or.inl h
      · exact Or.inr ⟨r, Or.inl rfl, Or.inl h⟩
      · exact Or.inr ⟨r, Or.inl rfl, Or.inr h⟩
      · exact Or.inr ⟨r', Or.inr hr', h⟩
    · rintro (h | ⟨r', hr' | hr', h⟩)
      · exact Or.inl (Or.inl (Or.inl h))
      · rcases h with h | h
        · exact Or.inl (Or.inl (Or.inr (hr' ▸ h)))
        · exact Or.inl (Or.inr (hr' ▸ h))
      · exact Or.inr ⟨r', hr', h⟩

theorem addEdge_closed (g : Graph) (u v : Value) (d : Attrs)
    (h : ∀ e ∈ g.edges, e.u ∈ g.nodes ∧ e.v ∈ g.nodes) :
    ∀ e ∈ (addEdge g u v d).edges,
      e.u ∈ (addEdge g u v d).nodes ∧ e.v ∈ (addEdge g u v d).nodes := by
  intro e he
  rw [addEdge_nodes, mem_addNode, mem_addNode, mem_addNode, mem_addNode]
  by_cases hex : (g.edges.any fun e => samePair e.u e.v u v) = true
  · simp only [addEdge, hex, if_true, List.mem_map] at he
    obtain ⟨e₀, he₀, rfl⟩ := he
    obtain ⟨hu, hv⟩ := h e₀ he₀
    by_cases hp : samePair e₀.u e₀.v u v = true <;> simp [hp, hu, hv]
  · have hex' : (g.edges.any fun e => samePair e.u e.v u v) = false :=
      Bool.not_eq_true _ ▸ (Bool.not_eq_true _).mp hex
    simp only [addEdge, hex', Bool.false_eq_true, if_false, List.mem_append,
      List.mem_singleton] at he
    rcases he with he | rfl
    · obtain ⟨hu, hv⟩ := h e he
      exact ⟨Or.inl (Or.inl hu), Or.inl (Or.inl hv)⟩
    · exact ⟨Or.inl (Or.inr rfl), Or.inr rfl⟩

theorem foldl_step_closed (si ti : Nat) (ais : List (String × Nat)) (rows : List Row)
    (g : Graph) (h : ∀ e ∈ g.edges, e.u ∈ g.nodes ∧ e.v ∈ g.nodes) :
    ∀ e ∈ (rows.foldl (step si ti ais) g).edges,
      e.u ∈ (rows.foldl (step si ti ais) g).nodes ∧
      e.v ∈ (rows.foldl (step si ti ais) g).nodes := by
  induction rows generalizing g with
  | nil => exact h
  | cons r rows ih =>
    rw [List.foldl_cons]
    exact ih _ (addEdge_closed _ _ _ _ h)

theorem findE_foldl (si ti : Nat) (ais : List (String × Nat)) (rows : List Row)
    (g : Graph) (u v : Value) :
    (findE ((rows.foldl (step si ti ais) g).edges) u v).map Edge.attrs =
      ((rows.filter fun r => samePair (r.getD si v0) (r.getD ti v0) u v).getLast?.map
          (attrsOf ais)).or
        ((findE g.edges u v).map Edge.attrs) := by
  induction rows generalizing g with
  | nil => simp
  | cons r rows ih =>
    rw [List.foldl_cons, ih]
    have hstep : (findE (step si ti ais g r).edges u v).map Edge.attrs =
        if samePair (r.getD si v0) (r.getD ti v0) u v then some (attrsOf ais r)
        else (findE g.edges u v).map Edge.attrs := findE_addEdge ..
    rw [hstep, List.filter_cons]
    by_cases hp : samePair (r.getD si v0) (r.getD ti v0) u v = true
    · rw [if_pos hp, if_pos hp, List.getLast?_cons]
      rcases hlast : (rows.filter fun r =>
          samePair (r.getD si v0) (r.getD ti v0) u v).getLast? with _ | r' <;>
        rw [hlast] <;> rfl
    · rw [if_neg hp, if_neg hp]

/-- No two stored edges join the same unordered pair. -/
def distinctKeys (es : List Edge) : Prop :=
  es.Pairwise fun e₁ e₂ => samePair e₁.u e₁.v e₂.u e₂.v = false

theorem distinctKeys_addEdge (g : Graph) (u v : Value) (d : Attrs)
    (h : distinctKeys g.edges) : distinctKeys (addEdge g u v d).edges := by
  by_cases hex : (g.edges.any fun e => samePair e.u e.v u v) = true
  · simp only [addEdge, hex, if_true, distinctKeys]
    rw [List.pairwise_map]
    refine List.Pairwise.imp ?_ h
    intro e₁ e₂ h12
    by_cases p₁ : samePair e₁.u e₁.v u v = true <;>
      by_cases p₂ : samePair e₂.u e₂.v u v = true <;> simp [p₁, p₂, h12]
  · have hex' : (g.edges.any fun e => samePair e.u e.v u v) = false :=
      Bool.not_eq_true _ ▸ (Bool.not_eq_true _).mp hex
    simp only [addEdge, hex', Bool.false_eq_true, if_false, distinctKeys]
    rw [List.pairwise_append]
    refine ⟨h, List.pairwise_singleton _ _, ?_⟩
    intro e he e' he'
    rw [List.mem_singleton] at he'
    subst he'
    rw [List.any_eq_true] at hex
    by_contra hc
    rw [Bool.not_eq_false] at hc
    exact hex ⟨e, he, hc⟩

theorem distinctKeys_foldl (si ti : Nat) (ais : List (String × Nat)) (rows : List Row)
    (g : Graph) (h : distinctKeys g.edges) :
    distinctKeys ((rows.foldl (step si ti ais) g).edges) := by
  induction rows generalizing g with
  | nil => exact h
  | cons r rows ih =>
    rw [List.foldl_cons]
    exact ih _ (distinctKeys_addEdge _ _ _ _ h)

theorem findE_of_mem {es : List Edge} (h : distinctKeys es) {e : Edge} (he : e ∈ es) :
    findE es e.u e.v = some e := by
  induction es with
  | nil => cases he
  | cons e₀ es ih =>
    rw [List.mem_cons] at he
    rcases he with rfl | he
    · unfold findE
      rw [List.find?_cons, samePair_refl]
    · have hne : samePair e₀.u e₀.v e.u e.v = false :=
        (List.pairwise_cons.mp h).1 e he
      unfold findE
      rw [List.find?_cons, hne]
      exact ih (List.pairwise_cons.mp h).2 he

theorem length_foldl_addPair (ps : List (Value × Value)) (acc : List (Value × Value)) :
    (ps.foldl addPair acc).length ≤ acc.length + ps.length := by
  induction ps generalizing acc with
  | nil => simp
  | cons p ps ih =>
    rw [List.foldl_cons]
    refine le_trans (ih _) ?_
    have : (addPair acc p).length ≤ acc.length + 1 := by
      unfold addPair
      split
      · omega
      · rw [List.length_append]
        simp
    rw [List.length_cons]
    omega

/-! ## Lemmas about the loader -/

theorem read_csv_of_not_mem (t : Table) (h : "TIME" ∉ t.names) :
    read_csv t = ⟨t.names ++ ["TIME"], t.rows.map fun r => r ++ [timeVal r]⟩ := by
  have hidx : t.names.indexOf? "TIME" = none := by
    rw [List.indexOf?_eq_none_iff]
    intro x hx
    simp only [beq_iff_eq]
    intro hc
    exact h (hc ▸ hx)
  unfold read_csv
  rw [hidx]

theorem read_csv_names (t : Table) (h : "TIME" ∉ t.names) :
    (read_csv t).names = t.names ++ ["TIME"] := by
  rw [read_csv_of_not_mem t h]

theorem read_csv_rows (t : Table) (h : "TIME" ∉ t.names) :
    (read_csv t).rows = t.rows.map fun r => r ++ [timeVal r] := by
  rw [read_csv_of_not_mem t h]

/-- `TIME` is always a column of the loaded frame. -/
theorem time_mem_read_csv_names (t : Table) : "TIME" ∈ (read_csv t).names := by
  unfold read_csv
  rcases hidx : t.names.indexOf? "TIME" with _ | i
  · simp
  · have : "TIME" ∈ t.names := by
      by_contra hc
      have : t.names.indexOf? "TIME" = none := by
        rw [List.indexOf?_eq_none_iff]
        intro x hx
        simp only [beq_iff_eq]
        intro h'
        exact hc (h' ▸ hx)
      rw [this] at hidx
      exact Option.noConfusion hidx
    exact this

/-- A column of the input table keeps its position in the loaded frame. -/
theorem indexOf_read_csv (t : Table) (h : "TIME" ∉ t.names) (n : String)
    (hn : n ∈ t.names) :
    (read_csv t).names.indexOf n = t.names.indexOf n := by
  rw [read_csv_names t h]
  exact List.indexOf_append_of_mem hn

/-- The derived `TIME` column sits after the selected columns. -/
theorem indexOf_time_read_csv (t : Table) (h : "TIME" ∉ t.names) :
    (read_csv t).names.indexOf "TIME" = t.names.length := by
  rw [read_csv_names t h, List.indexOf_append_of_not_mem h]
  simp [List.indexOf_cons_self]

/-- A named cell of a loaded row is the corresponding cell of the input
row. -/
theorem getD_row_append (r : Row) (x : Value) (i : Nat) (hi : i < r.length) :
    (r ++ [x]).getD i v0 = r.getD i v0 :=
  List.getD_append _ _ _ _ hi

theorem getD_row_append_len (r : Row) (x : Value) :
    (r ++ [x]).getD r.length v0 = x := by
  rw [List.getD_append_right _ _ _ _ (le_refl _)]
  simp

/-! ## Lemmas about the graph builder on a loaded table -/

theorem build_nx_eq (t : Table) (g : Graph) (h : build_nx t = .ok g) :
    firstMissing (read_csv t).names = none ∧
    g = buildG ((read_csv t).names.indexOf "PIN RESET MSISDN")
        ((read_csv t).names.indexOf "CREDIT PARTY")
        (edge_attr_names.map fun n => (n, (read_csv t).names.indexOf n))
        (read_csv t).rows := by
  unfold build_nx from_pandas_edgelist at h
  rcases hfm : firstMissing (read_csv t).names with _ | k
  · rw [hfm] at h
    refine ⟨rfl, ?_⟩
    cases h
    rfl
  · rw [hfm] at h
    exact Except.noConfusion h

theorem required_mem_of_firstMissing_none {names : List String}
    (h : firstMissing names = none) : ∀ k ∈ accessOrder, k ∈ names := by
  intro k hk
  rw [firstMissing, List.find?_eq_none] at h
  have := h k hk
  simpa using this

theorem required_mem_names (t : Table) (hT : "TIME" ∉ t.names)
    (hfm : firstMissing (read_csv t).names = none) (k : String)
    (hk : k ∈ accessOrder) (hkT : k ≠ "TIME") : k ∈ t.names := by
  have hmem := required_mem_of_firstMissing_none hfm k hk
  rw [read_csv_names t hT, List.mem_append] at hmem
  rcases hmem with h | h
  · exact h
  · rw [List.mem_singleton] at h
    exact absurd h hkT

/-- A named cell of a loaded row equals the same cell of the input row. -/
theorem loaded_getD_name (t : Table) (hT : "TIME" ∉ t.names)
    (n : String) (hn : n ∈ t.names) (r : Row) (hr : r.length = t.names.length) :
    (r ++ [timeVal r]).getD ((read_csv t).names.indexOf n) v0 =
      r.getD (t.names.indexOf n) v0 := by
  rw [indexOf_read_csv t hT n hn]
  exact getD_row_append r _ _ (by rw [hr]; exact List.indexOf_lt_length.mpr hn)

/-- The `TIME` cell of a loaded row is the derived value for that row. -/
theorem loaded_getD_time (t : Table) (hT : "TIME" ∉ t.names)
    (r : Row) (hr : r.length = t.names.length) :
    (r ++ [timeVal r]).getD ((read_csv t).names.indexOf "TIME") v0 = timeVal r := by
  rw [indexOf_time_read_csv t hT, ← hr, getD_row_append_len]

/-- The per-row endpoint pairs of the loaded frame are the input table's
(reset-account-id, credit-party-id) pairs. -/
theorem loaded_edgePairs (t : Table) (hT : "TIME" ∉ t.names)
    (hlen : ∀ r ∈ t.rows, r.length = t.names.length)
    (hs : "PIN RESET MSISDN" ∈ t.names) (hc : "CREDIT PARTY" ∈ t.names) :
    ((read_csv t).rows.map fun r =>
        (r.getD ((read_csv t).names.indexOf "PIN RESET MSISDN") v0,
         r.getD ((read_csv t).names.indexOf "CREDIT PARTY") v0)) = edgePairs t := by
  rw [read_csv_rows t hT, List.map_map]
  apply List.map_congr_left
  intro r hr
  simp only [Function.comp]
  rw [loaded_getD_name t hT _ hs r (hlen r hr), loaded_getD_name t hT _ hc r (hlen r hr)]
  rfl

/-- `getAttr` on an attribute dict built from named positions. -/
theorem getAttr_attrsOf (ns : List String) (idx : String → Nat) (r : Row)
    (n : String) (hn : n ∈ ns) :
    getAttr (attrsOf (ns.map fun m => (m, idx m)) r) n = some (r.getD (idx n) v0) := by
  induction ns with
  | nil => cases hn
  | cons m ns ih =>
    simp only [attrsOf, getAttr, List.map_cons, List.find?_cons] at *
    by_cases hm : m = n
    · subst hm
      simp
    · have hd : (decide (m = n)) = false := by simp [hm]
      simp only [hd]
      rw [List.mem_cons] at hn
      rcases hn with rfl | hn
      · exact absurd rfl hm
      · exact ih hn

/-! ## Concrete input tables -/

/-- Two records with distinct (reset, credit) pairs (the spec §8
end-to-end scenario). -/
def tEnd : Table := ⟨stdNames,
  [mkRow 21 "255700000001" 22 "n1" "1001" "s1" "t1" "id1" 5,
   mkRow 25 "255700000001" 20 "n2" "1002" "s2" "t2" "id2" 6]⟩

/-- Two records with the same (reset, credit) pair but different
transaction ids. -/
def tDup : Table := ⟨stdNames,
  [mkRow 21 "255700000001" 22 "n1" "1001" "s1" "t1" "id1" 5,
   mkRow 25 "255700000001" 20 "n2" "1001" "s2" "t2" "id2" 6]⟩

/-- Two records whose (reset, credit) pairs are mutual reverses, both ids
of full MSISDN length. -/
def tRev : Table := ⟨stdNames,
  [mkRow 21 "255700000001" 22 "n1" "255700000002" "s1" "t1" "id1" 5,
   mkRow 25 "255700000002" 20 "n2" "255700000001" "s2" "t2" "id2" 6]⟩

/-- One record whose two parsed dates are equal. -/
def tEq : Table := ⟨stdNames,
  [mkRow 21 "255700000001" 21 "n1" "1001" "s1" "t1" "id1" 5]⟩

/-- One record whose first date is later than the compared date, so its
derived `TIME` is `1`. -/
def tAfter : Table := ⟨stdNames,
  [mkRow 25 "255700000001" 20 "n1" "1001" "s1" "t1" "id1" 5]⟩

/-- A header missing the `DEBIT PARTY` column. -/
def tBad : Table :=
  ⟨["RESET DATE", "PIN RESET MSISDN", "SWAP DATE", "CREDIT PARTY",
    "CREDIT PARTY SHORTCODE/MSISDN", "TRANSACTION TIME", "TRANSACTION ID",
    "TRANSACTION AMOUNT"], []⟩

/-- A valid header with zero data rows. -/
def tEmpty : Table := ⟨stdNames, []⟩

/-! ## C1 — edge count of the built graph -/

/-- **C1** (amended).  `build_nx` uses `nx.from_pandas_edgelist` with the
default `create_using`, i.e. a *simple* undirected `nx.Graph`, not a
multigraph: records whose unordered (reset-account-id, credit-party-id)
pair coincides are merged into a single edge, so the graph has exactly one
edge per *distinct unordered endpoint pair* of the data rows — and hence
at most N edges for N data rows, with exactly N only when all pairs are
distinct. -/
theorem C1_edge_count (t : Table) (g : Graph) (hT : "TIME" ∉ t.names)
    (hlen : ∀ r ∈ t.rows, r.length = t.names.length)
    (h : build_nx t = .ok g) :
    g.edges.length = (dedupPairs (edgePairs t)).length ∧
    g.edges.length ≤ t.rows.length := by
  obtain ⟨hfm, hg⟩ := build_nx_eq t g h
  subst hg
  have hs : "PIN RESET MSISDN" ∈ t.names :=
    required_mem_names t hT hfm _ (by simp [accessOrder, edge_attr_names]) (by simp)
  have hc : "CREDIT PARTY" ∈ t.names :=
    required_mem_names t hT hfm _ (by simp [accessOrder, edge_attr_names]) (by simp)
  have hkeys := foldl_step_keys ((read_csv t).names.indexOf "PIN RESET MSISDN")
    ((read_csv t).names.indexOf "CREDIT PARTY")
    (edge_attr_names.map fun n => (n, (read_csv t).names.indexOf n))
    (read_csv t).rows ⟨[], []⟩
  have hpairs := loaded_edgePairs t hT hlen hs hc
  have hlen1 : (buildG ((read_csv t).names.indexOf "PIN RESET MSISDN")
      ((read_csv t).names.indexOf "CREDIT PARTY")
      (edge_attr_names.map fun n => (n, (read_csv t).names.indexOf n))
      (read_csv t).rows).edges.length = (dedupPairs (edgePairs t)).length := by
    rw [← List.length_map _ (fun e : Edge => (e.u, e.v))]
    unfold buildG
    rw [hkeys, hpairs]
    rfl
  refine ⟨hlen1, ?_⟩
  rw [hlen1]
  have hb := length_foldl_addPair (edgePairs t) []
  have hmap : (edgePairs t).length = t.rows.length := List.length_map _ _
  unfold dedupPairs
  simp only [List.length_nil, Nat.zero_add, hmap] at hb
  exact hb

/-- **C1** counterexample to the claim as stated: `tDup` has 2 data rows
between the same pair of accounts, but the resulting graph has 1 edge, not
2 — parallel records are merged, not kept. -/
theorem C1_counterexample :
    tDup.rows.length = 2 ∧
    (build_nx tDup).toOption.map (fun g => g.edges.length) = some 1 ∧
    (1 : Nat) ≠ 2 := by
  refine ⟨rfl, by decide, by decide⟩

/-- **C1** witness: the amended statement at the two-distinct-pair table. -/
theorem C1_edge_count_witness :
    build_nx tEnd = .ok ((build_nx tEnd).toOption.getD ⟨[], []⟩) ∧
    (((build_nx tEnd).toOption.getD ⟨[], []⟩).edges.length =
        (dedupPairs (edgePairs tEnd)).length ∧
      ((build_nx tEnd).toOption.getD ⟨[], []⟩).edges.length ≤ tEnd.rows.length) :=
  ⟨by rfl, C1_edge_count tEnd _ (by decide) (by decide) (by rfl)⟩

/-! ## C2 — the derived relative-time column -/

/-- **C2** (amended).  For every row of the loaded table, the derived
`TIME` cell is appended to that row and equals 0 exactly when the first
parsed date value is *strictly earlier* than the third selected column's
date value, and 1 otherwise (so equal dates give 1, not 0); the value is a
function of that row alone, hence independent of row order. -/
theorem C2_relative_time (t : Table) (hT : "TIME" ∉ t.names) (i : Nat) (r : Row)
    (hr : t.rows[i]? = some r) (a b : Int)
    (ha : r.getD 0 v0 = .date a) (hb : r.getD 2 v0 = .date b) :
    (read_csv t).rows[i]? = some (r ++ [timeVal r]) ∧
    timeVal r = .num (if a < b then 0 else 1) ∧
    (timeVal r = .num 0 ↔ a < b) := by
  have h1 : (read_csv t).rows[i]? = some (r ++ [timeVal r]) := by
    rw [read_csv_rows t hT, List.getElem?_map, hr]
    rfl
  have h2 : timeVal r = .num (if a < b then 0 else 1) := by
    unfold timeVal
    rw [ha, hb]
    by_cases hab : a < b
    · simp [Value.lt, hab]
    · simp [Value.lt, hab]
  refine ⟨h1, h2, ?_⟩
  rw [h2]
  by_cases hab : a < b <;> simp [hab]

/-- **C2** counterexample to the claim as stated: in `tEq` the first date
equals the compared date (21 = 21, so "earlier-or-equal" holds), yet the
derived relative-time is 1, not the claimed 0. -/
theorem C2_counterexample :
    (tEq.rows.getD 0 []).getD 0 v0 = .date 21 ∧
    (tEq.rows.getD 0 []).getD 2 v0 = .date 21 ∧
    ((read_csv tEq).rows.getD 0 []).getD 9 v0 = .num 1 ∧
    Value.num 1 ≠ Value.num 0 := by
  refine ⟨rfl, rfl, by decide, by decide⟩

/-- **C2** witness: the amended statement at a concrete strictly-earlier
row. -/
theorem C2_relative_time_witness :
    (read_csv tEnd).rows[0]? = some (tEnd.rows.getD 0 [] ++ [timeVal (tEnd.rows.getD 0 [])]) ∧
    timeVal (tEnd.rows.getD 0 []) = .num (if (21 : Int) < 22 then 0 else 1) ∧
    (timeVal (tEnd.rows.getD 0 []) = .num 0 ↔ (21 : Int) < 22) :=
  C2_relative_time tEnd (by decide) 0 _ (by decide) 21 22 (by decide) (by decide)

/-! ## C3 — edge colors -/

/-- **C3** (amended).  Every rendered edge's color string is `edge_color`
of its `batime` value, and the mapping is: relative-time 1 ↦
`mediumseagreen`, relative-time 0 ↦ `firebrick` — the *reverse* of the
claimed assignment.  The endpoint inversion (`low=1, high=0`) is real, but
it sends value 1 to the *low* end of the palette, whose low-end color is
`mediumseagreen`, and value 0 to the high end, `firebrick`. -/
theorem C3_edge_colors (g : Graph) (i : Nat) (ov : Option Value)
    (h : (ba_time g)[i]? = some ov) :
    (render g).edge_color_strings[i]? = some (edge_color ov) ∧
    edge_color (some (.num 1)) = some "mediumseagreen" ∧
    edge_color (some (.num 0)) = some "firebrick" ∧
    linearColorMapper target_palette 1 0 1 = target_palette.head? ∧
    linearColorMapper target_palette 1 0 0 = target_palette.getLast? := by
  refine ⟨?_, by decide, by decide, by decide, by decide⟩
  show ((ba_time g).map edge_color)[i]? = some (edge_color ov)
  rw [List.getElem?_map, h]
  rfl

/-- **C3** counterexample to the claim as stated: on `tAfter` the single
edge has relative-time 1, and its rendered color is `mediumseagreen`, not
the claimed firebrick. -/
theorem C3_counterexample :
    (run (.table tAfter)).output.map (fun p => p.edge_times) =
      some [some (.num 1)] ∧
    (run (.table tAfter)).output.map (fun p => p.edge_color_strings) =
      some [some "mediumseagreen"] ∧
    (some "mediumseagreen" : Option String) ≠ some "firebrick" := by
  refine ⟨by decide, by decide, by decide⟩

/-- A one-edge graph whose edge carries relative-time 1. -/
def gW : Graph :=
  ⟨[.str "a", .str "b"], [⟨.str "a", .str "b", [("TIME", .num 1)]⟩]⟩

/-- **C3** witness: the amended statement at a concrete one-edge graph. -/
theorem C3_edge_colors_witness :
    (render gW).edge_color_strings[0]? = some (edge_color (some (.num 1))) ∧
    edge_color (some (.num 1)) = some "mediumseagreen" ∧
    edge_color (some (.num 0)) = some "firebrick" ∧
    linearColorMapper target_palette 1 0 1 = target_palette.head? ∧
    linearColorMapper target_palette 1 0 0 = target_palette.getLast? :=
  C3_edge_colors gW 0 (some (.num 1)) (by decide)

/-! ## C4 — node categories -/

/-- **C4** (amended).  A node's category is 0 when its string length is
below 12; otherwise 1 when the node appears among the `PIN RESET MSISDN`
attributes *stored on the graph's edges* (after simple-graph merging these
are the reset ids of the last record per surviving account pair, not of
every record of the input data); otherwise 2.  The assignment is a pure
function of the node id's string length and that membership bit. -/
theorem C4_node_category (g : Graph) (i : Value) (g' : Graph) (i' : Value)
    (hl : i.toStr.length = i'.toStr.length)
    (hm : (r_msisdn g).contains (some i) = (r_msisdn g').contains (some i')) :
    node_color g i = node_color g' i' ∧
    (node_color g i = 0 ↔ i.toStr.length < 12) ∧
    (node_color g i = 1 ↔
      12 ≤ i.toStr.length ∧ (r_msisdn g).contains (some i) = true) ∧
    (node_color g i = 2 ↔
      12 ≤ i.toStr.length ∧ (r_msisdn g).contains (some i) = false) ∧
    ((r_msisdn g).contains (some i) = true ↔
      ∃ e ∈ g.edges, getAttr e.attrs "PIN RESET MSISDN" = some i) := by
  have hcm : ∀ (h : Graph) (x : Value),
      ((r_msisdn h).contains (some x) = true ↔ some x ∈ r_msisdn h) := by
    intro h x
    exact List.elem_iff
  refine ⟨?_, ?_, ?_, ?_, ?_⟩
  · unfold node_color
    rw [hl, hm]
  · unfold node_color
    by_cases h12 : i.toStr.length < 12
    · simp [h12]
    · by_cases hmem : some i ∈ r_msisdn g <;> simp [h12, hmem, List.elem_iff]
  · unfold node_color
    by_cases h12 : i.toStr.length < 12
    · simp [h12]
    · by_cases hmem : some i ∈ r_msisdn g <;>
        simp [h12, hmem, List.elem_iff] <;> omega
  · unfold node_color
    by_cases h12 : i.toStr.length < 12
    · simp [h12]
    · by_cases hmem : some i ∈ r_msisdn g <;>
        simp [h12, hmem, List.elem_iff] <;> omega
  · rw [hcm]
    unfold r_msisdn atts
    rw [List.map_map, List.mem_map]
    constructor
    · rintro ⟨e, he, hx⟩
      exact ⟨e, he, hx⟩
    · rintro ⟨e, he, hx⟩
      exact ⟨e, he, hx⟩

/-- **C4** counterexample to the claim as stated: in `tRev` the account
`255700000001` appears as a reset-account-id in the input data and its id
has length 12, so the claim assigns category B (1); the code assigns
category C (2), because the merged edge only retains the *other* row's
reset id. -/
theorem C4_counterexample :
    Value.str "255700000001" ∈ resetIds tRev ∧
    ¬ ((Value.str "255700000001").toStr.length < 12) ∧
    (build_nx tRev).toOption.map (fun g => node_color g (.str "255700000001")) =
      some 2 ∧
    (2 : Nat) ≠ 1 := by
  refine ⟨by decide, by decide, by decide, by decide⟩

/-- The graph the pipeline builds from `tRev`. -/
def gRev : Graph := (build_nx tRev).toOption.getD ⟨[], []⟩

/-- **C4** witness: the amended statement at the `tRev` graph and node
`255700000001`. -/
theorem C4_node_category_witness :
    node_color gRev (.str "255700000001") = node_color gRev (.str "255700000001") ∧
    (node_color gRev (.str "255700000001") = 0 ↔
      (Value.str "255700000001").toStr.length < 12) ∧
    (node_color gRev (.str "255700000001") = 1 ↔
      12 ≤ (Value.str "255700000001").toStr.length ∧
        (r_msisdn gRev).contains (some (.str "255700000001")) = true) ∧
    (node_color gRev (.str "255700000001") = 2 ↔
      12 ≤ (Value.str "255700000001").toStr.length ∧
        (r_msisdn gRev).contains (some (.str "255700000001")) = false) ∧
    ((r_msisdn gRev).contains (some (.str "255700000001")) = true ↔
      ∃ e ∈ gRev.edges, getAttr e.attrs "PIN RESET MSISDN" =
        some (.str "255700000001")) :=
  C4_node_category gRev (.str "255700000001") gRev (.str "255700000001") rfl rfl

/-! ## C5 — node set of the built graph -/

/-- **C5**.  The built graph's nodes are exactly the reset-account-ids and
credit-party-ids appearing across the rows of the input data, and both
endpoints of every stored edge are nodes. -/
theorem C5_node_set (t : Table) (g : Graph) (hT : "TIME" ∉ t.names)
    (hlen : ∀ r ∈ t.rows, r.length = t.names.length)
    (h : build_nx t = .ok g) :
    (∀ x, x ∈ g.nodes ↔ x ∈ resetIds t ∨ x ∈ creditIds t) ∧
    (∀ e ∈ g.edges, e.u ∈ g.nodes ∧ e.v ∈ g.nodes) := by
  obtain ⟨hfm, hg⟩ := build_nx_eq t g h
  have hs : "PIN RESET MSISDN" ∈ t.names :=
    required_mem_names t hT hfm _ (by simp [accessOrder, edge_attr_names]) (by simp)
  have hc : "CREDIT PARTY" ∈ t.names :=
    required_mem_names t hT hfm _ (by simp [accessOrder, edge_attr_names]) (by simp)
  constructor
  · intro x
    rw [hg]
    unfold buildG
    rw [foldl_step_nodes]
    simp only [List.not_mem_nil, false_or]
    rw [read_csv_rows t hT]
    constructor
    · rintro ⟨r', hr', hx⟩
      rw [List.mem_map] at hr'
      obtain ⟨r, hr, rfl⟩ := hr'
      rw [loaded_getD_name t hT _ hs r (hlen r hr),
        loaded_getD_name t hT _ hc r (hlen r hr)] at hx
      rcases hx with hx | hx
      · exact Or.inl (List.mem_map.mpr ⟨r, hr, hx.symm⟩)
      · exact Or.inr (List.mem_map.mpr ⟨r, hr, hx.symm⟩)
    · rintro (hx | hx)
      · rw [resetIds, List.mem_map] at hx
        obtain ⟨r, hr, hrx⟩ := hx
        refine ⟨r ++ [timeVal r], List.mem_map.mpr ⟨r, hr, rfl⟩, Or.inl ?_⟩
        rw [loaded_getD_name t hT _ hs r (hlen r hr)]
        exact hrx.symm
      · rw [creditIds, List.mem_map] at hx
        obtain ⟨r, hr, hrx⟩ := hx
        refine ⟨r ++ [timeVal r], List.mem_map.mpr ⟨r, hr, rfl⟩, Or.inr ?_⟩
        rw [loaded_getD_name t hT _ hc r (hlen r hr)]
        exact hrx.symm
  · rw [hg]
    unfold buildG
    exact foldl_step_closed _ _ _ _ _ (by intro e he; cases he)

/-- **C5** witness: the node-set equation at the spec's two-row scenario
table, checked at the node `255700000001`. -/
theorem C5_node_set_witness :
    build_nx tEnd = .ok ((build_nx tEnd).toOption.getD ⟨[], []⟩) ∧
    ((∀ x, x ∈ ((build_nx tEnd).toOption.getD ⟨[], []⟩).nodes ↔
        x ∈ resetIds tEnd ∨ x ∈ creditIds tEnd) ∧
      (∀ e ∈ ((build_nx tEnd).toOption.getD ⟨[], []⟩).edges,
        e.u ∈ ((build_nx tEnd).toOption.getD ⟨[], []⟩).nodes ∧
        e.v ∈ ((build_nx tEnd).toOption.getD ⟨[], []⟩).nodes)) :=
  ⟨by rfl, C5_node_set tEnd _ (by decide) (by decide) (by rfl)⟩

/-! ## C6 — edge attributes -/

/-- **C6** (amended).  For any unordered pair of accounts, the built graph
stores an edge joining them exactly when some input record links that
pair, and the stored edge carries every originally-selected named column
plus the derived relative-time — with the values taken from the *last*
input record linking that pair (earlier parallel records are overwritten
by the simple-graph merge). -/
theorem C6_edge_attributes (t : Table) (g : Graph) (hT : "TIME" ∉ t.names)
    (hlen : ∀ r ∈ t.rows, r.length = t.names.length)
    (h : build_nx t = .ok g) (u v : Value) :
    ((findE g.edges u v).isSome = true ↔
      ∃ r ∈ t.rows, samePair (rowSrc t r) (rowTgt t r) u v = true) ∧
    (∀ e, findE g.edges u v = some e →
      ∃ r, lastRecord t u v = some r ∧ r ∈ t.rows ∧
        getAttr e.attrs "PIN RESET MSISDN" = some (rowSrc t r) ∧
        getAttr e.attrs "DEBIT PARTY" =
          some (r.getD (t.names.indexOf "DEBIT PARTY") v0) ∧
        getAttr e.attrs "CREDIT PARTY" = some (rowTgt t r) ∧
        getAttr e.attrs "CREDIT PARTY SHORTCODE/MSISDN" =
          some (r.getD (t.names.indexOf "CREDIT PARTY SHORTCODE/MSISDN") v0) ∧
        getAttr e.attrs "TIME" = some (timeVal r) ∧
        getAttr e.attrs "TRANSACTION TIME" =
          some (r.getD (t.names.indexOf "TRANSACTION TIME") v0) ∧
        getAttr e.attrs "TRANSACTION ID" =
          some (r.getD (t.names.indexOf "TRANSACTION ID") v0) ∧
        getAttr e.attrs "TRANSACTION AMOUNT" =
          some (r.getD (t.names.indexOf "TRANSACTION AMOUNT") v0)) := by
  obtain ⟨hfm, hg⟩ := build_nx_eq t g h
  have hs : "PIN RESET MSISDN" ∈ t.names :=
    required_mem_names t hT hfm _ (by simp [accessOrder, edge_attr_names]) (by simp)
  have hc : "CREDIT PARTY" ∈ t.names :=
    required_mem_names t hT hfm _ (by simp [accessOrder, edge_attr_names]) (by simp)
  have hfold := findE_foldl ((read_csv t).names.indexOf "PIN RESET MSISDN")
    ((read_csv t).names.indexOf "CREDIT PARTY")
    (edge_attr_names.map fun n => (n, (read_csv t).names.indexOf n))
    (read_csv t).rows ⟨[], []⟩ u v
  rw [hg]
  unfold buildG
  have hemp : (findE (Graph.mk [] []).edges u v).map Edge.attrs = none := rfl
  rw [hemp, Option.or_none] at hfold
  -- rewrite the filtered loaded rows as loaded filtered input rows
  have hfilter : ((read_csv t).rows.filter fun r =>
      samePair (r.getD ((read_csv t).names.indexOf "PIN RESET MSISDN") v0)
        (r.getD ((read_csv t).names.indexOf "CREDIT PARTY") v0) u v) =
      (t.rows.filter fun r => samePair (rowSrc t r) (rowTgt t r) u v).map
        fun r => r ++ [timeVal r] := by
    rw [read_csv_rows t hT, List.filter_map]
    congr 1
    apply List.filter_congr
    intro r hr
    simp only [Function.comp]
    rw [loaded_getD_name t hT _ hs r (hlen r hr),
      loaded_getD_name t hT _ hc r (hlen r hr)]
    rfl
  rw [hfilter, List.getLast?_map, Option.map_map] at hfold
  have isSome_map : ∀ {α β : Type} (f : α → β) (o : Option α),
      (o.map f).isSome = o.isSome := by
    intro α β f o
    cases o <;> rfl
  constructor
  · have hiso := congrArg Option.isSome hfold
    rw [isSome_map, isSome_map] at hiso
    rw [hiso]
    constructor
    · intro hsome
      rw [Option.isSome_iff_exists] at hsome
      obtain ⟨r, hr⟩ := hsome
      have hmem := List.mem_of_mem_getLast? hr
      rw [List.mem_filter] at hmem
      exact ⟨r, hmem.1, hmem.2⟩
    · rintro ⟨r, hr, hp⟩
      have : (t.rows.filter fun r =>
          samePair (rowSrc t r) (rowTgt t r) u v) ≠ [] := by
        intro hnil
        rw [List.filter_eq_nil_iff] at hnil
        exact hnil r hr hp
      rw [Option.isSome_iff_ne_none]
      intro hnone
      rw [List.getLast?_eq_none_iff] at hnone
      exact this hnone
  · intro e he
    have hsome : Option.map Edge.attrs
        (findE (List.foldl (step ((read_csv t).names.indexOf "PIN RESET MSISDN")
          ((read_csv t).names.indexOf "CREDIT PARTY")
          (edge_attr_names.map fun n => (n, (read_csv t).names.indexOf n)))
          (Graph.mk [] []) (read_csv t).rows).edges u v) = some e.attrs := by
      rw [he]
      rfl
    have hthis := hsome.symm.trans hfold
    rcases hlast : (t.rows.filter fun r =>
        samePair (rowSrc t r) (rowTgt t r) u v).getLast? with _ | r
    · rw [hlast] at hthis
      exact Option.noConfusion hthis
    · rw [hlast] at hthis
      simp only [Option.map_some'] at hthis
      have hattr : e.attrs = attrsOf (edge_attr_names.map fun n =>
          (n, (read_csv t).names.indexOf n)) (r ++ [timeVal r]) :=
        Option.some_inj.mp hthis
      have hrmem : r ∈ t.rows := by
        have := List.mem_of_mem_getLast? hlast
        exact (List.mem_filter.mp this).1
      have hget : ∀ n ∈ edge_attr_names,
          getAttr e.attrs n = some ((r ++ [timeVal r]).getD
            ((read_csv t).names.indexOf n) v0) := by
        intro n hn
        rw [hattr]
        exact getAttr_attrsOf edge_attr_names
          (fun m => (read_csv t).names.indexOf m) _ n hn
      have hnames : ∀ n ∈ edge_attr_names, n ≠ "TIME" → n ∈ t.names := by
        intro n hn hne
        refine required_mem_names t hT hfm n ?_ hne
        unfold accessOrder
        exact List.mem_cons_of_mem _ (List.mem_cons_of_mem _ hn)
      refine ⟨r, hlast, hrmem, ?_, ?_, ?_, ?_, ?_, ?_, ?_, ?_⟩
      · rw [hget "PIN RESET MSISDN" (by simp [edge_attr_names]),
          loaded_getD_name t hT _ hs r (hlen r hrmem)]
        rfl
      · rw [hget "DEBIT PARTY" (by simp [edge_attr_names]),
          loaded_getD_name t hT _
            (hnames "DEBIT PARTY" (by simp [edge_attr_names]) (by simp)) r
            (hlen r hrmem)]
      · rw [hget "CREDIT PARTY" (by simp [edge_attr_names]),
          loaded_getD_name t hT _ hc r (hlen r hrmem)]
        rfl
      · rw [hget "CREDIT PARTY SHORTCODE/MSISDN" (by simp [edge_attr_names]),
          loaded_getD_name t hT _
            (hnames "CREDIT PARTY SHORTCODE/MSISDN"
              (by simp [edge_attr_names]) (by simp)) r (hlen r hrmem)]
      · rw [hget "TIME" (by simp [edge_attr_names]),
          loaded_getD_time t hT r (hlen r hrmem)]
      · rw [hget "TRANSACTION TIME" (by simp [edge_attr_names]),
          loaded_getD_name t hT _
            (hnames "TRANSACTION TIME" (by simp [edge_attr_names]) (by simp)) r
            (hlen r hrmem)]
      · rw [hget "TRANSACTION ID" (by simp [edge_attr_names]),
          loaded_getD_name t hT _
            (hnames "TRANSACTION ID" (by simp [edge_attr_names]) (by simp)) r
            (hlen r hrmem)]
      · rw [hget "TRANSACTION AMOUNT" (by simp [edge_attr_names]),
          loaded_getD_name t hT _
            (hnames "TRANSACTION AMOUNT" (by simp [edge_attr_names]) (by simp)) r
            (hlen r hrmem)]

/-- **C6** counterexample to the claim as stated: in `tDup` both records
link the same pair of accounts; record 0 has `TRANSACTION ID` `id1`, but
the (single, merged) edge created from it carries `id2` — the values of
record 1, not of record 0. -/
theorem C6_counterexample :
    samePair (rowSrc tDup (tDup.rows.getD 0 [])) (rowTgt tDup (tDup.rows.getD 0 []))
      (rowSrc tDup (tDup.rows.getD 1 [])) (rowTgt tDup (tDup.rows.getD 1 [])) = true ∧
    (tDup.rows.getD 0 []).getD (tDup.names.indexOf "TRANSACTION ID") v0 =
      .str "id1" ∧
    (build_nx tDup).toOption.map
        (fun g => g.edges.map fun e => getAttr e.attrs "TRANSACTION ID") =
      some [some (.str "id2")] ∧
    Value.str "id2" ≠ Value.str "id1" := by
  refine ⟨by decide, by decide, by decide, by decide⟩

/-- The graph the pipeline builds from `tDup`. -/
def gDup : Graph := (build_nx tDup).toOption.getD ⟨[], []⟩

/-- **C6** witness: the amended statement at `tDup` and the account pair
(`255700000001`, `1001`). -/
theorem C6_edge_attributes_witness :
    ((findE gDup.edges (.str "255700000001") (.str "1001")).isSome = true ↔
      ∃ r ∈ tDup.rows, samePair (rowSrc tDup r) (rowTgt tDup r)
        (.str "255700000001") (.str "1001") = true) ∧
    (∀ e, findE gDup.edges (.str "255700000001") (.str "1001") = some e →
      ∃ r, lastRecord tDup (.str "255700000001") (.str "1001") = some r ∧
        r ∈ tDup.rows ∧
        getAttr e.attrs "PIN RESET MSISDN" = some (rowSrc tDup r) ∧
        getAttr e.attrs "DEBIT PARTY" =
          some (r.getD (tDup.names.indexOf "DEBIT PARTY") v0) ∧
        getAttr e.attrs "CREDIT PARTY" = some (rowTgt tDup r) ∧
        getAttr e.attrs "CREDIT PARTY SHORTCODE/MSISDN" =
          some (r.getD (tDup.names.indexOf "CREDIT PARTY SHORTCODE/MSISDN") v0) ∧
        getAttr e.attrs "TIME" = some (timeVal r) ∧
        getAttr e.attrs "TRANSACTION TIME" =
          some (r.getD (tDup.names.indexOf "TRANSACTION TIME") v0) ∧
        getAttr e.attrs "TRANSACTION ID" =
          some (r.getD (tDup.names.indexOf "TRANSACTION ID") v0) ∧
        getAttr e.attrs "TRANSACTION AMOUNT" =
          some (r.getD (tDup.names.indexOf "TRANSACTION AMOUNT") v0)) :=
  C6_edge_attributes tDup gDup (by decide) (by decide) (by rfl) _ _

/-! ## C7 — missing input file -/

/-- **C7**.  On a missing input file the run ends with the NotFound error,
prints a diagnostic (the loader's message and the error's own text), and
writes no output file. -/
theorem C7_missing_file :
    (run .missing).err = some .notFound ∧
    (run .missing).output = none ∧
    (run .missing).printed = ["CSV file not found.", fnf_str] ∧
    (run .missing).printed ≠ [] :=
  ⟨rfl, rfl, rfl, by decide⟩

/-! ## C8 — missing required column -/

/-- Columns of the input table survive loading. -/
theorem mem_names_read_csv (t : Table) {x : String} (hx : x ∈ t.names) :
    x ∈ (read_csv t).names := by
  unfold read_csv
  rcases hidx : t.names.indexOf? "TIME" with _ | i
  · exact List.mem_append_left _ hx
  · exact hx

/-- A name absent from the input table's columns and different from `TIME`
is absent from the loaded frame's columns. -/
theorem not_mem_names_read_csv (t : Table) {x : String} (hx : x ∉ t.names)
    (hxT : x ≠ "TIME") : x ∉ (read_csv t).names := by
  unfold read_csv
  rcases hidx : t.names.indexOf? "TIME" with _ | i
  · intro hmem
    rcases List.mem_append.mp hmem with h | h
    · exact hx h
    · exact hxT (List.mem_singleton.mp h)
  · exact hx

/-- **C8**.  If any required named column is absent from the header, the
run ends with a `KeyError` carrying some missing required column name, the
printed messages identify that key, and no output file is written. -/
theorem C8_schema_mismatch (t : Table) (k : String) (hk : k ∈ accessOrder)
    (hkT : k ≠ "TIME") (hmiss : k ∉ t.names) :
    ∃ k', k' ∈ accessOrder ∧ k' ∉ t.names ∧
      run (.table t) = ⟨["Incorrect CSV file heading.", "Key: '" ++ k' ++ "'"],
        none, some (.keyError k')⟩ := by
  have hnot := not_mem_names_read_csv t hmiss hkT
  have hk'some : (firstMissing (read_csv t).names).isSome = true := by
    rw [firstMissing, List.find?_isSome]
    refine ⟨k, hk, ?_⟩
    cases hcon : (read_csv t).names.contains k
    · rfl
    · exact absurd (List.elem_iff.mp hcon) hnot
  obtain ⟨k', hk'⟩ := Option.isSome_iff_exists.mp hk'some
  have hk'mem : k' ∈ accessOrder := List.mem_of_find?_eq_some hk'
  have hk'p := List.find?_some hk'
  have hk'not : k' ∉ (read_csv t).names := by
    intro hc
    have hcon : (read_csv t).names.contains k' = true := List.elem_iff.mpr hc
    rw [hcon] at hk'p
    exact absurd hk'p (by decide)
  have hfpe : from_pandas_edgelist (read_csv t) = .error k' := by
    unfold from_pandas_edgelist
    rw [hk']
  refine ⟨k', hk'mem, fun hc => hk'not (mem_names_read_csv t hc), ?_⟩
  have hrun : run (.table t) = match from_pandas_edgelist (read_csv t) with
      | Except.error k => ⟨["Incorrect CSV file heading.", "Key: '" ++ k ++ "'"],
          none, some (.keyError k)⟩
      | Except.ok g => ⟨[], some (render g), none⟩ := rfl
  rw [hrun, hfpe]

/-- **C8** witness: the header `tBad` lacks `DEBIT PARTY`; the run raises
`KeyError` on a missing required column, prints it, writes nothing. -/
theorem C8_schema_mismatch_witness :
    ∃ k', k' ∈ accessOrder ∧ k' ∉ tBad.names ∧
      run (.table tBad) = ⟨["Incorrect CSV file heading.", "Key: '" ++ k' ++ "'"],
        none, some (.keyError k')⟩ :=
  C8_schema_mismatch tBad "DEBIT PARTY" (by simp [accessOrder, edge_attr_names])
    (by simp) (by decide)

/-! ## C10 — valid header, zero data rows -/

/-- **C10**.  On a valid header with zero data rows the pipeline completes
with no error: the derived relative-time column is empty, the graph has no
nodes and no edges, and the output HTML is still written (with an empty
render). -/
theorem C10_empty_rows (names : List String)
    (hreq : ∀ k ∈ accessOrder, k ≠ "TIME" → k ∈ names) :
    (read_csv ⟨names, []⟩).rows = [] ∧
    build_nx ⟨names, []⟩ = .ok ⟨[], []⟩ ∧
    run (.table ⟨names, []⟩) = ⟨[], some (render ⟨[], []⟩), none⟩ ∧
    render ⟨[], []⟩ = ⟨"Tanzania SIM Swaps & PIN Resets 21-28 August 2018",
      [], [], [], []⟩ := by
  have hrows : (read_csv ⟨names, []⟩).rows = [] := by
    unfold read_csv
    rcases names.indexOf? "TIME" with _ | i <;> rfl
  have hfm : firstMissing (read_csv ⟨names, []⟩).names = none := by
    rw [firstMissing, List.find?_eq_none]
    intro k hk
    by_cases hkT : k = "TIME"
    · subst hkT
      simp [time_mem_read_csv_names ⟨names, []⟩]
    · simp [mem_names_read_csv ⟨names, []⟩ (hreq k hk hkT)]
  have hb : build_nx ⟨names, []⟩ = .ok ⟨[], []⟩ := by
    unfold build_nx from_pandas_edgelist
    rw [hfm, hrows]
    rfl
  refine ⟨hrows, hb, ?_, rfl⟩
  have hfpe : from_pandas_edgelist (read_csv ⟨names, []⟩) = .ok ⟨[], []⟩ := hb
  have hrun : run (.table ⟨names, []⟩) =
      match from_pandas_edgelist (read_csv ⟨names, []⟩) with
      | Except.error k => ⟨["Incorrect CSV file heading.", "Key: '" ++ k ++ "'"],
          none, some (.keyError k)⟩
      | Except.ok g => ⟨[], some (render g), none⟩ := rfl
  rw [hrun, hfpe]

/-- **C10** witness: the empty-rowed table with the standard header. -/
theorem C10_empty_rows_witness :
    (read_csv tEmpty).rows = [] ∧
    build_nx tEmpty = .ok ⟨[], []⟩ ∧
    run (.table tEmpty) = ⟨[], some (render ⟨[], []⟩), none⟩ ∧
    render ⟨[], []⟩ = ⟨"Tanzania SIM Swaps & PIN Resets 21-28 August 2018",
      [], [], [], []⟩ :=
  C10_empty_rows stdNames (by decide)

end SimSwap
